import Mathlib

/-!
Shallow embedding of the `pcap` crate's capture-handle lifecycle, packet
retrieval protocol and error taxonomy (from `src/lib.rs`).

The native libpcap engine and the async reactor are external collaborators;
their behaviour at the FFI boundary is modelled by explicit parameters:
every engine return code, diagnostic-string pointer and readiness answer the
Rust code consumes appears as an argument of the corresponding Lean function.
A C string pointer is modelled by `CStrPtr`: `none` is a null pointer, and a
non-null pointee is classified by whether its bytes form valid UTF-8 (the
`CStr::to_str` validation step is external to this crate).
-/

/-- Model of `std::io::ErrorKind` restricted to the kinds this development
needs to distinguish. -/
inductive IOErrorKind where
  | wouldBlock
  | permissionDenied
  | notFound
  | other
deriving DecidableEq, Repr

/-- Classification of the bytes a non-null C string pointer points at:
either they decode as UTF-8 to a Lean string, or validation fails at some
byte position (the position stands for the `Utf8Error` payload). -/
inductive CStrContent where
  | valid (s : String)
  | invalid (pos : Nat)
deriving DecidableEq, Repr

/-- A `*const c_char`: null, or a pointer to classified bytes. -/
abbrev CStrPtr := Option CStrContent

/-- The crate's `Error` enum (src/lib.rs lines 74-87), one constructor per
variant; `MalformedError` carries the UTF-8 error position in place of the
`Utf8Error` value, and `IoError` carries the modelled `ErrorKind`. -/
inductive Error where
  | MalformedError (pos : Nat)
  | InvalidString
  | PcapError (msg : String)
  | InvalidLinktype
  | TimeoutExpired
  | NoMorePackets
  | NonNonBlock
  | InsufficientMemory
  | InvalidInputString
  | IoError (kind : IOErrorKind)
  | InvalidRawFd
deriving DecidableEq, Repr

/-- Function `cstr_to_string` (src/lib.rs lines 981-988): a null pointer yields
`Ok(None)`; otherwise `CStr::to_str` either decodes the bytes (`Ok(Some s)`)
or fails UTF-8 validation, which the `?` operator converts to
`MalformedError` via `From<Utf8Error>`. -/
def cstr_to_string : CStrPtr → Except Error (Option String)
  | none => .ok none
  | some (.valid s) => .ok (some s)
  | some (.invalid p) => .error (.MalformedError p)

/-- Method `Error::new` (src/lib.rs lines 90-95): the single conversion point from an
engine diagnostic pointer to an `Error`.  A decoding failure is returned as
that failure's error; otherwise the decoded string (empty when the pointer was
null, by `unwrap_or_default`) becomes a `PcapError`. -/
def Error.new (ptr : CStrPtr) : Error :=
  match cstr_to_string ptr with
  | .error e => e
  | .ok s => .PcapError (s.getD "")

/-- Struct `PacketHeader` (src/lib.rs lines 405-409): timestamp seconds and
sub-second units (the `libc::timeval` fields) plus captured and on-wire
lengths.  The `u32` length fields are modelled as `Nat`; only equality and
slice-length facts are stated about them. -/
structure PacketHeader where
  ts_sec : Int
  ts_usec : Int
  caplen : Nat
  len : Nat
deriving DecidableEq, Repr

/-- The manual `PartialEq` impl of `PacketHeader` (src/lib.rs lines 422-427):
field-by-field comparison of both timestamp components and both lengths. -/
def PacketHeader.eq (a b : PacketHeader) : Bool :=
  a.ts_sec == b.ts_sec && a.ts_usec == b.ts_usec &&
    a.caplen == b.caplen && a.len == b.len

/-- Struct `Packet` (src/lib.rs lines 382-385): a view of a header and a data byte
slice.  Bytes are modelled as `Nat`s; the borrowed references are modelled by
their pointees. -/
structure Packet where
  header : PacketHeader
  data : List Nat
deriving DecidableEq, Repr

/-- The derived `PartialEq` for `Packet` (src/lib.rs line 381): both fields
must compare equal, the header via `PacketHeader.eq` and the data slices
element-wise. -/
def Packet.eq (a b : Packet) : Bool :=
  PacketHeader.eq a.header b.header && a.data == b.data

/-- Outcome of an operation that may panic: `fatal` models a Rust panic /
`unreachable!()`, the other constructors the two sides of the returned
`Result<Packet, Error>`. -/
inductive NextResult where
  | ok (p : Packet)
  | err (e : Error)
  | fatal
deriving DecidableEq, Repr

/-- Method `Capture::<T: Activated>::next` (src/lib.rs lines 808-836) as a function
of the engine's behaviour on this call: `retcode` is `pcap_next_ex`'s return,
`hdr` the header the engine wrote, `buf` the engine's packet byte memory, and
`geterr` the `pcap_geterr` diagnostic pointer.  The code first runs
`check_err(retcode != -1)`, then matches `>= 1` (success: a slice of exactly
`caplen` bytes from the data pointer), `0` (timeout), `-2` (end of input),
and hits `unreachable!()` on anything else. -/
def next (retcode : Int) (hdr : PacketHeader) (buf : Nat → Nat)
    (geterr : CStrPtr) : NextResult :=
  if retcode = -1 then .err (Error.new geterr)
  else if 1 ≤ retcode then
    .ok ⟨hdr, (List.range hdr.caplen).map buf⟩
  else if retcode = 0 then .err .TimeoutExpired
  else if retcode = -2 then .err .NoMorePackets
  else .fatal

/-- The four phantom state markers (src/lib.rs lines 452-464), as a runtime
tag: the Rust phantom type parameter of `Capture<T>` becomes a data field of
the model. -/
inductive State where
  | Inactive
  | Active
  | Offline
  | Dead
deriving DecidableEq, Repr

/-- The `Activated` marker trait (src/lib.rs lines 466-472): implemented by
exactly `Active`, `Offline` and `Dead`. -/
def Activated : State → Bool
  | .Active => true
  | .Offline => true
  | .Dead => true
  | .Inactive => false

/-- Struct `Capture<T>` (src/lib.rs lines 519-523): the `nonblock` flag plus the
state tag.  The non-null `Unique<pcap_t>` handle itself is opaque and carries
no further observable data. -/
structure Capture where
  nonblock : Bool
  state : State
deriving DecidableEq, Repr

/-- Method `Capture::new` (src/lib.rs lines 526-534): every construction entry point
funnels through this, and it sets `nonblock` to `false`. -/
def Capture.new (st : State) : Capture :=
  { nonblock := false, state := st }

/-- Method `Capture::new_raw` (src/lib.rs lines 536-549): `pathOk` is whether
`CString::new(path)` succeeded (no interior NUL, else `InvalidInputString`
via `From<NulError>`), `handleOk` whether the engine returned a non-null
handle, and `err` the error buffer the engine filled on failure. -/
def Capture.new_raw (pathOk : Bool) (handleOk : Bool) (err : CStrPtr)
    (st : State) : Except Error Capture :=
  if !pathOk then .error .InvalidInputString
  else if handleOk then .ok (Capture.new st)
  else .error (Error.new err)

/-- Method `Capture::from_device` (src/lib.rs lines 647-651): `pcap_create` through
`new_raw`, producing an `Inactive` handle. -/
def Capture.from_device (pathOk handleOk : Bool) (err : CStrPtr) :
    Except Error Capture :=
  Capture.new_raw pathOk handleOk err .Inactive

/-- Method `Capture::from_file` (src/lib.rs lines 573-576): `pcap_open_offline`
through `new_raw`, producing an `Offline` handle. -/
def Capture.from_file (pathOk handleOk : Bool) (err : CStrPtr) :
    Except Error Capture :=
  Capture.new_raw pathOk handleOk err .Offline

/-- Method `Capture::from_raw_fd` (src/lib.rs lines 589-594): `open_raw_fd` first
(failing with `InvalidRawFd` when `fdopen` returns null), then
`pcap_fopen_offline` through `new_raw` with no path argument. -/
def Capture.from_raw_fd (fdOk handleOk : Bool) (err : CStrPtr) :
    Except Error Capture :=
  if !fdOk then .error .InvalidRawFd
  else Capture.new_raw true handleOk err .Offline

/-- Method `Capture::dead` (src/lib.rs lines 912-916): `pcap_open_dead` yields
either a non-null handle (a `Dead` capture) or null (`InsufficientMemory`). -/
def Capture.dead (allocOk : Bool) : Except Error Capture :=
  if allocOk then .ok (Capture.new .Dead)
  else .error .InsufficientMemory

/-- Method `Capture::<Inactive>::open` (src/lib.rs lines 655-660), named `open'`
because `open` is a Lean keyword: `check_err(pcap_activate(handle) == 0)?`
then `Ok(mem::transmute(self))` — the transmute changes only the phantom
state, all fields (in particular `nonblock`) are preserved.  `activateCode`
is `pcap_activate`'s return, `geterr` the `pcap_geterr` diagnostic. -/
def Capture.open' (c : Capture) (activateCode : Int) (geterr : CStrPtr) :
    Except Error Capture :=
  if activateCode = 0 then .ok { c with state := .Active }
  else .error (Error.new geterr)

/-- Method `Capture::<Active>::setnonblock` (src/lib.rs lines 899-907): when
`pcap_setnonblock` returns non-zero the error buffer is converted and
returned (the consumed handle is dropped); on zero the flag is set to `true`
and the handle returned. -/
def Capture.setnonblock (c : Capture) (code : Int) (err : CStrPtr) :
    Except Error Capture :=
  if code ≠ 0 then .error (Error.new err)
  else .ok { c with nonblock := true }

/-- Method `as_raw_fd` of `impl AsRawFd for Capture<Active>` (src/lib.rs lines 921-932):
`pcap_fileno`'s return is matched; `-1` panics (`none` in the model), any
other value is returned as the descriptor. -/
def as_raw_fd (filenoRet : Int) : Option Int :=
  if filenoRet = -1 then none
  else some filenoRet

/-- Calls made against the engine / reactor during stream construction. -/
inductive EngineCall where
  | getSelectableFd
  | registerWithReactor
deriving DecidableEq, Repr

/-- The constructed stream value: the consumed capture plus the selectable
descriptor registered with the reactor. -/
structure PacketStream where
  cap : Capture
  fd : Int
deriving DecidableEq, Repr

/-- Modelled from the spec: `stream::PacketStream::new` lives in the `stream`
module, which is not among the examined sources.  Per the spec, construction
registers the engine-supplied selectable descriptor with the external
reactor; `reg` is that registration's outcome, an I/O failure of which is
surfaced through `From<io::Error>`. -/
def PacketStream.new (c : Capture) (fd : Int)
    (reg : Except IOErrorKind Unit) : Except Error PacketStream :=
  match reg with
  | .ok _ => .ok ⟨c, fd⟩
  | .error k => .error (.IoError k)

/-- Method `Capture::<T: Activated>::stream` (src/lib.rs lines 855-863) together
with the trace of engine/reactor calls it performs: when `self.nonblock` is
false it returns `NonNonBlock` before any engine call; otherwise it fetches
the selectable descriptor (`fd`) and hands it to `PacketStream::new`. -/
def Capture.stream (c : Capture) (fd : Int)
    (reg : Except IOErrorKind Unit) :
    Except Error PacketStream × List EngineCall :=
  if !c.nonblock then (.error .NonNonBlock, [])
  else (PacketStream.new c fd reg,
        [.getSelectableFd, .registerWithReactor])

/-- Calls made against the reactor / engine during one `next_noblock` poll
step. -/
inductive PollCall where
  | pollReadReady
  | engineNextEx
  | clearReadReady
deriving DecidableEq, Repr

/-- Method `Capture::<T: Activated>::next_noblock` (src/lib.rs lines 839-852) with
its call trace: `ready` is the reactor's `poll_read_ready` answer (`false` =
`Pending`), `clear` the outcome of `clear_read_ready` (fallible, propagated
by `?` through `From<io::Error>`), and the remaining arguments are passed to
`next` exactly as in the blocking path. -/
def next_noblock (ready : Bool) (clear : Except IOErrorKind Unit)
    (retcode : Int) (hdr : PacketHeader) (buf : Nat → Nat)
    (geterr : CStrPtr) : NextResult × List PollCall :=
  if !ready then (.err (.IoError .wouldBlock), [.pollReadReady])
  else
    match next retcode hdr buf geterr with
    | .ok p => (.ok p, [.pollReadReady, .engineNextEx])
    | .err .TimeoutExpired =>
      (match clear with
       | .ok _ => .err (.IoError .wouldBlock)
       | .error k => .err (.IoError k),
       [.pollReadReady, .engineNextEx, .clearReadReady])
    | .err e => (.err e, [.pollReadReady, .engineNextEx])
    | .fatal => (.fatal, [.pollReadReady, .engineNextEx])

/-- The state-gated operations named by the spec, one constructor per method:
the `impl Capture<Inactive>` builder setters (src/lib.rs lines 628-735), the
`impl<T: Activated> Capture<T>` operations (lines 738-888), and
`sendpacket` from `impl Capture<Active>` (lines 890-908). -/
inductive Op where
  | timeout
  | tstamp_type
  | promisc
  | immediate_mode
  | rfmon
  | buffer_size
  | precision
  | snaplen
  | next
  | filter
  | stats
  | get_datalink
  | set_datalink
  | list_datalinks
  | direction
  | savefile
  | sendpacket
deriving DecidableEq, Repr

/-- Which states admit each operation, read off the `impl` block each method
is declared in: the builder setters sit in `impl Capture<Inactive>`, the
retrieval/filter/stats/datalink/direction/savefile methods in
`impl<T: Activated> Capture<T>`, and `sendpacket` in `impl Capture<Active>`. -/
def availableOn : Op → State → Bool
  | .timeout, st => st == .Inactive
  | .tstamp_type, st => st == .Inactive
  | .promisc, st => st == .Inactive
  | .immediate_mode, st => st == .Inactive
  | .rfmon, st => st == .Inactive
  | .buffer_size, st => st == .Inactive
  | .precision, st => st == .Inactive
  | .snaplen, st => st == .Inactive
  | .next, st => Activated st
  | .filter, st => Activated st
  | .stats, st => Activated st
  | .get_datalink, st => Activated st
  | .set_datalink, st => Activated st
  | .list_datalinks, st => Activated st
  | .direction, st => Activated st
  | .savefile, st => Activated st
  | .sendpacket, st => st == .Active

/-- The spec's classification of the operations: configuration setters
(timeout, promisc, buffer size, snaplen, timestamp type and precision,
immediate and monitor mode). -/
def isConfigSetter : Op → Bool
  | .timeout => true
  | .tstamp_type => true
  | .promisc => true
  | .immediate_mode => true
  | .rfmon => true
  | .buffer_size => true
  | .precision => true
  | .snaplen => true
  | _ => false

/-- The spec's classification of the operations: the Activated capability set
(next, filter, stats, datalink get/set/list, direction, savefile). -/
def isActivatedOp : Op → Bool
  | .next => true
  | .filter => true
  | .stats => true
  | .get_datalink => true
  | .set_datalink => true
  | .list_datalinks => true
  | .direction => true
  | .savefile => true
  | _ => false

/-- Availability as the SPEC's words assign it, for comparison with
`availableOn`: configuration setters exist only on Inactive handles, the
Activated operations only on Active, Offline and Dead handles, and send only
on Active. -/
def specAvailable (op : Op) (st : State) : Bool :=
  if isConfigSetter op then st == .Inactive
  else if isActivatedOp op then
    st == .Active || st == .Offline || st == .Dead
  else st == .Active

/-- One handle-transforming step of the lifecycle, labelled by what the
caller did and how the engine answered: a builder setter on an Inactive
handle, a successful `open` (`pcap_activate` returned 0), a `setnonblock`
call with the engine's return code, or any Activated operation that borrows
the handle without changing it. -/
inductive Event where
  | configOp
  | openOk
  | setnonblockCall (code : Int)
  | activatedOp
deriving DecidableEq, Repr

/-- The effect of one event on a handle.  `none` means no usable handle
remains: either the operation is not admitted by the handle's state (the
typestate makes the call unrepresentable) or the handle was consumed by a
failing `setnonblock`.  The state changes only through `openOk`
(Inactive to Active, `nonblock` preserved by the transmute), and `nonblock`
changes only through `setnonblockCall 0`. -/
def applyEvent (c : Capture) (e : Event) : Option Capture :=
  match e with
  | .configOp => if c.state == .Inactive then some c else none
  | .openOk =>
    if c.state == .Inactive then some { c with state := .Active } else none
  | .setnonblockCall code =>
    if c.state == .Active then
      if code = 0 then some { c with nonblock := true } else none
    else none
  | .activatedOp => if Activated c.state then some c else none

/-- Folds a list of events over a handle; a lost handle stops the run. -/
def runEvents : Capture → List Event → Option Capture
  | c, [] => some c
  | c, e :: es =>
    match applyEvent c e with
    | some c' => runEvents c' es
    | none => none

/-- C1: for every Activated capture handle, `next` maps the engine retrieval
call's return code as follows: a positive packet count returns success with a
Packet view over the just-produced header and data; zero returns the
read-timeout-expired error; `-2` returns the end-of-input error; `-1` returns
an engine error carrying the engine's diagnostic text; and any other return
code is an internal-invariant violation (panic), never silently ignored. -/
theorem next_retcode_mapping (retcode : Int) (hdr : PacketHeader)
    (buf : Nat → Nat) (geterr : CStrPtr) (s : String) :
    (1 ≤ retcode → next retcode hdr buf geterr =
      .ok ⟨hdr, (List.range hdr.caplen).map buf⟩) ∧
    (retcode = 0 → next retcode hdr buf geterr = .err .TimeoutExpired) ∧
    (retcode = -2 → next retcode hdr buf geterr = .err .NoMorePackets) ∧
    (retcode = -1 → next retcode hdr buf (some (.valid s)) =
      .err (.PcapError s)) ∧
    (retcode ≤ -3 → next retcode hdr buf geterr = .fatal) := by
  refine ⟨?_, ?_, ?_, ?_, ?_⟩ <;> intro h
  · unfold next
    rw [if_neg (by omega), if_pos h]
  · subst h; rfl
  · subst h; rfl
  · subst h; rfl
  · unfold next
    rw [if_neg (by omega), if_neg (by omega), if_neg (by omega),
        if_neg (by omega)]

theorem next_retcode_mapping_witness :
    next 1 ⟨0, 0, 2, 2⟩ (fun i => i) none =
      .ok ⟨⟨0, 0, 2, 2⟩, [0, 1]⟩ ∧
    next 0 ⟨0, 0, 0, 0⟩ (fun _ => 0) none = .err .TimeoutExpired ∧
    next (-2) ⟨0, 0, 0, 0⟩ (fun _ => 0) none = .err .NoMorePackets ∧
    next (-1) ⟨0, 0, 0, 0⟩ (fun _ => 0) (some (.valid "boom")) =
      .err (.PcapError "boom") ∧
    next (-3) ⟨0, 0, 0, 0⟩ (fun _ => 0) none = .fatal :=
  ⟨(next_retcode_mapping 1 ⟨0, 0, 2, 2⟩ (fun i => i) none "").1 (by omega),
   (next_retcode_mapping 0 ⟨0, 0, 0, 0⟩ (fun _ => 0) none "").2.1 rfl,
   (next_retcode_mapping (-2) ⟨0, 0, 0, 0⟩ (fun _ => 0) none "").2.2.1 rfl,
   (next_retcode_mapping (-1) ⟨0, 0, 0, 0⟩ (fun _ => 0) none "boom").2.2.2.1
     rfl,
   (next_retcode_mapping (-3) ⟨0, 0, 0, 0⟩ (fun _ => 0) none "").2.2.2.2
     (by omega)⟩

/-- C10: for every successful call to `next`, the length of the returned
Packet's data byte slice equals exactly the `caplen` field of the returned
Packet's header. -/
theorem next_data_len_eq_caplen (retcode : Int) (hdr : PacketHeader)
    (buf : Nat → Nat) (geterr : CStrPtr) (p : Packet)
    (h : next retcode hdr buf geterr = .ok p) :
    p.data.length = p.header.caplen := by
  unfold next at h
  split at h
  · simp at h
  · split at h
    · injection h with h
      subst h
      simp
    · split at h
      · simp at h
      · split at h <;> simp at h

theorem next_data_len_eq_caplen_witness :
    (Packet.mk ⟨0, 0, 3, 3⟩ [7, 7, 7]).data.length =
      (Packet.mk ⟨0, 0, 3, 3⟩ [7, 7, 7]).header.caplen :=
  next_data_len_eq_caplen 1 ⟨0, 0, 3, 3⟩ (fun _ => 7) none
    ⟨⟨0, 0, 3, 3⟩, [7, 7, 7]⟩ rfl

/-- C8: two Packet views compare equal iff their headers agree on timestamp
seconds, timestamp sub-second units, captured length and original length, and
their data byte slices are identical; no relation such as caplen ≤ len is
required for equality to be defined (the second conjunct compares two packets
whose caplen exceeds their len). -/
theorem packet_eq_iff_fields :
    (∀ a b : Packet,
      Packet.eq a b = true ↔
        (a.header.ts_sec = b.header.ts_sec ∧
         a.header.ts_usec = b.header.ts_usec ∧
         a.header.caplen = b.header.caplen ∧
         a.header.len = b.header.len ∧
         a.data = b.data)) ∧
    Packet.eq ⟨⟨0, 0, 5, 2⟩, [1]⟩ ⟨⟨0, 0, 5, 2⟩, [1]⟩ = true := by
  constructor
  · intro a b
    simp [Packet.eq, PacketHeader.eq, and_assoc]
  · rfl

/-- C5: for every Inactive capture handle, `open` consumes the handle and
returns an Active handle exactly when the engine's activation call returns
zero; on a non-zero return it produces an engine error carrying the engine's
diagnostic and no handle of any state (the only handle-typed value is the
Active success result, whose fields besides the state are those of the
consumed Inactive value). -/
theorem open_activation (c : Capture) (code : Int) (geterr : CStrPtr)
    (s : String) (hc : c.state = .Inactive) :
    (code = 0 →
      Capture.open' c code geterr = .ok { c with state := .Active }) ∧
    (code ≠ 0 →
      Capture.open' c code (some (.valid s)) = .error (.PcapError s)) ∧
    (∀ c', Capture.open' c code geterr = .ok c' →
      code = 0 ∧ c'.state = .Active ∧ c'.nonblock = c.nonblock) := by
  refine ⟨?_, ?_, ?_⟩
  · intro h
    simp [Capture.open', h]
  · intro h
    simp [Capture.open', h, Error.new, cstr_to_string]
  · intro c' h
    unfold Capture.open' at h
    split at h
    · injection h with h
      subst h
      simp_all
    · simp at h

theorem open_activation_witness :
    Capture.open' (Capture.new .Inactive) 0 none =
      .ok { Capture.new .Inactive with state := .Active } ∧
    Capture.open' (Capture.new .Inactive) 3 (some (.valid "busy")) =
      .error (.PcapError "busy") :=
  ⟨(open_activation (Capture.new .Inactive) 0 none "" rfl).1 rfl,
   (open_activation (Capture.new .Inactive) 3 (some (.valid "busy")) "busy"
      rfl).2.1 (by omega)⟩

/-- C6 counterexample: the claim says `Error::new` falls back to a generic
engine-error whenever the diagnostic buffer is unusable, including when its
bytes are undecodable; but on undecodable bytes (UTF-8 failure at position 0)
the code returns the malformed-text kind, which is not `PcapError` for any
message. -/
theorem error_new_undecodable_cex :
    ¬ ∃ msg, Error.new (some (.invalid 0)) = .PcapError msg := by
  rintro ⟨msg, h⟩
  simp [Error.new, cstr_to_string] at h

/-- C6 (amended): `Error::new` produces the engine-reported-error kind
carrying the decoded message when the diagnostic string decodes successfully,
falls back to a generic engine-error with an empty message when the pointer
is null, and surfaces the malformed-text-from-engine kind when the bytes are
undecodable — never panicking or producing an unlisted kind. -/
theorem error_new_conversion (s : String) (p : Nat) :
    Error.new (some (.valid s)) = .PcapError s ∧
    Error.new none = .PcapError "" ∧
    Error.new (some (.invalid p)) = .MalformedError p :=
  ⟨rfl, rfl, rfl⟩

/-- C7: the raw-descriptor accessor returns the engine-supplied descriptor
when the engine call succeeds and treats an engine return of `-1` as a fatal,
non-recoverable condition (`none` models the panic), not a reportable error;
it is the only operation that panics on a defined engine return code — in
particular `next`, the one other operation with a fatal outcome, never
panics on any of the engine's defined return codes (≥ -2). -/
theorem as_raw_fd_fatal_on_neg_one (fd : Int) (retcode : Int)
    (hdr : PacketHeader) (buf : Nat → Nat) (geterr : CStrPtr) :
    as_raw_fd (-1) = none ∧
    (fd ≠ -1 → as_raw_fd fd = some fd) ∧
    (-2 ≤ retcode → next retcode hdr buf geterr ≠ .fatal) := by
  refine ⟨rfl, ?_, ?_⟩
  · intro h
    simp [as_raw_fd, h]
  · intro h
    unfold next
    split
    · simp
    · split
      · simp
      · split
        · simp
        · split
          · simp
          · omega

theorem as_raw_fd_fatal_on_neg_one_witness :
    as_raw_fd 5 = some 5 ∧
    next 0 ⟨0, 0, 0, 0⟩ (fun _ => 0) none ≠ .fatal :=
  ⟨(as_raw_fd_fatal_on_neg_one 5 0 ⟨0, 0, 0, 0⟩ (fun _ => 0) none).2.1
     (by omega),
   (as_raw_fd_fatal_on_neg_one 5 0 ⟨0, 0, 0, 0⟩ (fun _ => 0) none).2.2
     (by omega)⟩

/-- C3: for every Activated capture handle whose non-blocking flag is false,
the stream constructor fails immediately with the not-in-nonblocking-mode
error, with an empty engine/reactor call trace (so before obtaining a
selectable descriptor or registering with the reactor); only when the flag is
true does it fetch the descriptor and proceed to construct the stream. -/
theorem stream_requires_nonblock (c : Capture) (fd : Int)
    (reg : Except IOErrorKind Unit) :
    (c.nonblock = false →
      Capture.stream c fd reg = (.error .NonNonBlock, [])) ∧
    (c.nonblock = true →
      Capture.stream c fd reg =
        (PacketStream.new c fd reg,
         [.getSelectableFd, .registerWithReactor])) := by
  constructor <;> intro h <;> simp [Capture.stream, h]

theorem stream_requires_nonblock_witness :
    Capture.stream (Capture.new .Offline) 4 (.ok ()) =
      (.error .NonNonBlock, []) ∧
    Capture.stream ⟨true, .Active⟩ 4 (.ok ()) =
      (.ok ⟨⟨true, .Active⟩, 4⟩,
       [.getSelectableFd, .registerWithReactor]) :=
  ⟨(stream_requires_nonblock (Capture.new .Offline) 4 (.ok ())).1 rfl,
   (stream_requires_nonblock ⟨true, .Active⟩ 4 (.ok ())).2 rfl⟩

/-- C4 counterexample: the claim says a read-timeout result from `next` makes
`next_noblock` clear read-readiness and return would-block; but the clear
call itself is fallible and its failure is propagated, so with the reactor
ready, the engine reporting a timeout (return code 0) and the clear failing
with `permissionDenied`, the result is that I/O error, not would-block. -/
theorem next_noblock_clear_fail_cex :
    (next_noblock true (.error .permissionDenied) 0 ⟨0, 0, 0, 0⟩
        (fun _ => 0) none).1 =
      NextResult.err (.IoError .permissionDenied) ∧
    NextResult.err (Error.IoError .permissionDenied) ≠
      NextResult.err (.IoError .wouldBlock) := by
  refine ⟨rfl, ?_⟩
  simp

/-- C4 (amended): each poll step of `next_noblock` behaves as follows — if
the reactor reports the descriptor not read-ready, it returns would-block
without calling the engine's retrieval primitive; if ready, it calls `next`;
on a read-timeout result it asks the reactor to clear read-readiness and
returns would-block when the clear succeeds, while a failure of the clear
itself is surfaced as that I/O error; on success it returns the packet; any
other error from `next` is returned unchanged. -/
theorem next_noblock_poll_step (ready : Bool)
    (clear : Except IOErrorKind Unit) (retcode : Int) (hdr : PacketHeader)
    (buf : Nat → Nat) (geterr : CStrPtr) :
    (ready = false →
      next_noblock ready clear retcode hdr buf geterr =
        (.err (.IoError .wouldBlock), [.pollReadReady])) ∧
    (∀ p, ready = true → next retcode hdr buf geterr = .ok p →
      next_noblock ready clear retcode hdr buf geterr =
        (.ok p, [.pollReadReady, .engineNextEx])) ∧
    (ready = true → next retcode hdr buf geterr = .err .TimeoutExpired →
      clear = .ok () →
      next_noblock ready clear retcode hdr buf geterr =
        (.err (.IoError .wouldBlock),
         [.pollReadReady, .engineNextEx, .clearReadReady])) ∧
    (∀ k, ready = true → next retcode hdr buf geterr = .err .TimeoutExpired →
      clear = .error k →
      next_noblock ready clear retcode hdr buf geterr =
        (.err (.IoError k),
         [.pollReadReady, .engineNextEx, .clearReadReady])) ∧
    (∀ e, ready = true → next retcode hdr buf geterr = .err e →
      e ≠ .TimeoutExpired →
      next_noblock ready clear retcode hdr buf geterr =
        (.err e, [.pollReadReady, .engineNextEx])) := by
  refine ⟨?_, ?_, ?_, ?_, ?_⟩
  · intro h
    subst h
    rfl
  · intro p hr hn
    subst hr
    simp [next_noblock, hn]
  · intro hr hn hcl
    subst hr
    subst hcl
    simp [next_noblock, hn]
  · intro k hr hn hcl
    subst hr
    subst hcl
    simp [next_noblock, hn]
  · intro e hr hn hne
    subst hr
    cases e
    case TimeoutExpired => exact absurd rfl hne
    all_goals simp [next_noblock, hn]

theorem next_noblock_poll_step_witness :
    next_noblock false (.ok ()) 1 ⟨0, 0, 0, 0⟩ (fun _ => 0) none =
      (.err (.IoError .wouldBlock), [.pollReadReady]) ∧
    next_noblock true (.error .notFound) 0 ⟨0, 0, 0, 0⟩ (fun _ => 0) none =
      (.err (.IoError .notFound),
       [.pollReadReady, .engineNextEx, .clearReadReady]) ∧
    next_noblock true (.ok ()) (-2) ⟨0, 0, 0, 0⟩ (fun _ => 0) none =
      (.err .NoMorePackets, [.pollReadReady, .engineNextEx]) :=
  ⟨(next_noblock_poll_step false (.ok ()) 1 ⟨0, 0, 0, 0⟩ (fun _ => 0)
      none).1 rfl,
   (next_noblock_poll_step true (.error .notFound) 0 ⟨0, 0, 0, 0⟩
      (fun _ => 0) none).2.2.2.1 .notFound rfl rfl rfl,
   (next_noblock_poll_step true (.ok ()) (-2) ⟨0, 0, 0, 0⟩ (fun _ => 0)
      none).2.2.2.2 .NoMorePackets rfl rfl (by simp)⟩

/-- C2: availability of the state-gated operations matches the spec's
assignment exactly (configuration setters only on Inactive, the Activated
operations only on Active, Offline and Dead, send only on Active); every
Activated operation is unavailable on an Inactive handle; and the only event
taking an Inactive handle to a state with Activated capabilities is a
successful `open`/activate. -/
theorem state_gated_operations :
    (∀ op st, availableOn op st = specAvailable op st) ∧
    (∀ op, isActivatedOp op = true → availableOn op .Inactive = false) ∧
    (∀ (c : Capture) (e : Event) (c' : Capture),
      c.state = .Inactive → applyEvent c e = some c' →
      Activated c'.state = true → e = .openOk) := by
  refine ⟨?_, ?_, ?_⟩
  · intro op st
    cases op <;> cases st <;> rfl
  · intro op h
    cases op <;> simp_all [availableOn, isActivatedOp, Activated]
  · intro c e c' hst happ hact
    cases e with
    | configOp =>
      simp [applyEvent, hst] at happ
      subst happ
      simp [hst, Activated] at hact
    | openOk => rfl
    | setnonblockCall code =>
      simp [applyEvent, hst] at happ
    | activatedOp =>
      simp [applyEvent, hst, Activated] at happ

theorem state_gated_operations_witness :
    availableOn Op.next State.Inactive = false ∧
    Event.openOk = Event.openOk :=
  ⟨state_gated_operations.2.1 Op.next rfl,
   state_gated_operations.2.2 ⟨false, .Inactive⟩ .openOk ⟨false, .Active⟩
     rfl rfl rfl⟩

/-- Along any event run that contains no successful `setnonblock`, the
`nonblock` flag never becomes true: every other event preserves it. -/
theorem runEvents_preserves_nonblock (evs : List Event) :
    ∀ c c', Event.setnonblockCall 0 ∉ evs →
      runEvents c evs = some c' → c.nonblock = false →
      c'.nonblock = false := by
  induction evs with
  | nil =>
    intro c c' _ h hnb
    simp [runEvents] at h
    rwa [← h]
  | cons e es ih =>
    intro c c' hnotin h hnb
    have hnotin' : Event.setnonblockCall 0 ∉ es := by
      intro hmem
      exact hnotin (List.mem_cons_of_mem _ hmem)
    cases happ : applyEvent c e with
    | none => simp [runEvents, happ] at h
    | some c'' =>
      rw [runEvents, happ] at h
      refine ih c'' c' hnotin' h ?_
      cases e with
      | configOp =>
        simp only [applyEvent] at happ
        split at happ
        · injection happ with happ
          subst happ
          exact hnb
        · simp at happ
      | openOk =>
        simp only [applyEvent] at happ
        split at happ
        · injection happ with happ
          subst happ
          exact hnb
        · simp at happ
      | setnonblockCall code =>
        simp only [applyEvent] at happ
        split at happ
        · split at happ
          · rename_i hcode
            subst hcode
            exact absurd (List.mem_cons_self _ _) hnotin
          · simp at happ
        · simp at happ
      | activatedOp =>
        simp only [applyEvent] at happ
        split at happ
        · injection happ with happ
          subst happ
          exact hnb
        · simp at happ

/-- C9: every construction entry point (from_device, from_file, from_raw_fd,
dead) produces a handle whose non-blocking flag is false; `setnonblock`
returns a handle with the flag set to true exactly when the engine call
returned zero, and any non-zero engine return yields an error and no handle;
consequently, on any handle reached from a constructor by a run of lifecycle
events containing no successful `setnonblock`, the flag is still false and
`stream` fails with the not-in-nonblocking-mode error. -/
theorem nonblock_flag_lifecycle :
    (∀ pOk hOk err c, Capture.from_device pOk hOk err = .ok c →
      c.nonblock = false) ∧
    (∀ pOk hOk err c, Capture.from_file pOk hOk err = .ok c →
      c.nonblock = false) ∧
    (∀ fdOk hOk err c, Capture.from_raw_fd fdOk hOk err = .ok c →
      c.nonblock = false) ∧
    (∀ aOk c, Capture.dead aOk = .ok c → c.nonblock = false) ∧
    (∀ c code err c', Capture.setnonblock c code err = .ok c' →
      code = 0 ∧ c'.nonblock = true) ∧
    (∀ c code err, code ≠ 0 →
      ∃ e, Capture.setnonblock c code err = .error e) ∧
    (∀ st evs c, Event.setnonblockCall 0 ∉ evs →
      runEvents (Capture.new st) evs = some c →
      c.nonblock = false ∧
      ∀ fd reg, Capture.stream c fd reg = (.error .NonNonBlock, [])) := by
  refine ⟨?_, ?_, ?_, ?_, ?_, ?_, ?_⟩
  · intro pOk hOk err c h
    cases pOk <;> cases hOk <;>
      simp_all [Capture.from_device, Capture.new_raw, Capture.new] <;>
      simp [← h]
  · intro pOk hOk err c h
    cases pOk <;> cases hOk <;>
      simp_all [Capture.from_file, Capture.new_raw, Capture.new] <;>
      simp [← h]
  · intro fdOk hOk err c h
    cases fdOk <;> cases hOk <;>
      simp_all [Capture.from_raw_fd, Capture.new_raw, Capture.new] <;>
      simp [← h]
  · intro aOk c h
    cases aOk <;> simp_all [Capture.dead, Capture.new] <;> simp [← h]
  · intro c code err c' h
    unfold Capture.setnonblock at h
    split at h
    · simp at h
    · rename_i hcode
      injection h with h
      subst h
      simp_all
  · intro c code err h
    exact ⟨Error.new err, by simp [Capture.setnonblock, h]⟩
  · intro st evs c hnotin hrun
    have hnb : c.nonblock = false :=
      runEvents_preserves_nonblock evs (Capture.new st) c hnotin hrun rfl
    exact ⟨hnb, fun fd reg => by simp [Capture.stream, hnb]⟩

theorem nonblock_flag_lifecycle_witness :
    (Capture.new State.Offline).nonblock = false ∧
    Capture.stream (Capture.new State.Offline) 3 (.ok ()) =
      (.error .NonNonBlock, []) := by
  have h := nonblock_flag_lifecycle.2.2.2.2.2.2 State.Offline
    [Event.activatedOp] (Capture.new State.Offline) (by simp) rfl
  exact ⟨h.1, h.2 3 (.ok ())⟩
